import Mathlib

/-!
Verification of the `vibe` dictation core (`src/core/src/dictation.rs` and
`src/core/src/audio_capture.rs`).

Modelling conventions:
* `i16` samples are embedded as `Int` (the stored values; the capture path
  only moves them around, so no wrap-around arithmetic occurs on them).
* `Instant` is embedded as a `Nat` count of nanoseconds on an abstract
  monotonic clock; `elapsed()` at observation time `now` is `now - start`
  (truncated `Nat` subtraction), and `Duration::as_secs()` is division by
  `10^9`.
* `f64` quantities (RMS level, duration in seconds) are embedded in `ℝ`
  or `ℚ`; the operations the claims exercise are exact at the precision of
  `f64`, and the interval bounds proved here are preserved by rounding.
* The `f32` resampler accumulator is embedded in `ℚ`; on the inputs the
  claims exercise (integer accumulator values and 16-bit integer samples)
  every `f32` operation of the source is exact, so the `ℚ` trace coincides
  with the `f32` trace.
* Mutating `&mut self` / mutex-guarded methods are embedded as functions
  from the receiver state to the updated state (paired with the `Result`
  value where the source returns one).
-/

/-- `DICTATION_SAMPLE_RATE` from `audio_capture.rs`: 16 kHz mono target rate. -/
def DICTATION_SAMPLE_RATE : Nat := 16000

/-- `MAX_RECORDING_DURATION_SECS` from `dictation.rs` / `audio_capture.rs`. -/
def MAX_RECORDING_DURATION_SECS : Nat := 300

/-- `RING_BUFFER_CAPACITY` from `audio_capture.rs`: 16000 * 300 samples. -/
def RING_BUFFER_CAPACITY : Nat := 4800000

/-- `MAX_AUDIO_BUFFER_SIZE` from `dictation.rs`: 16000 * 300 samples. -/
def MAX_AUDIO_BUFFER_SIZE : Nat := 4800000

/-- `RMS_WINDOW_SIZE` from `audio_capture.rs`: 250 ms at 16 kHz. -/
def RMS_WINDOW_SIZE : Nat := 4000

/-- Nanoseconds per second, used to embed `Duration::as_secs`. -/
def NANOS_PER_SEC : Nat := 1000000000

/-- The `DictationState` enum of `dictation.rs`.  `Instant` is a `Nat`
nanosecond timestamp, `Arc<Vec<i16>>` is the underlying sample list, and the
`f64` duration is embedded in `ℚ`. -/
inductive DictationState where
  | Idle : DictationState
  | Recording (start_time : Nat) (audio_buffer : List Int)
      (microphone_device_id : Option String) : DictationState
  | Processing (audio_data : List Int) (duration_seconds : ℚ) : DictationState
  | Error (message : String) : DictationState

/-- `DictationState::can_start_recording`: matches `Idle | Error { .. }`. -/
def DictationState.can_start_recording : DictationState → Bool
  | .Idle => true
  | .Error _ => true
  | _ => false

/-- `DictationState::is_recording`. -/
def DictationState.is_recording : DictationState → Bool
  | .Recording _ _ _ => true
  | _ => false

/-- `DictationState::is_processing`. -/
def DictationState.is_processing : DictationState → Bool
  | .Processing _ _ => true
  | _ => false

/-- `DictationState::recording_duration` observed at clock value `now`
(nanoseconds): `start_time.elapsed()` in the `Recording` arm, `None`
otherwise. -/
def DictationState.recording_duration : DictationState → Nat → Option Nat
  | .Recording start_time _ _, now => some (now - start_time)
  | _, _ => none

/-- `DictationState::has_exceeded_max_duration` observed at clock value
`now`: `duration.as_secs() >= MAX_RECORDING_DURATION_SECS` when a recording
duration exists, otherwise `false`. -/
def DictationState.has_exceeded_max_duration (s : DictationState) (now : Nat) : Bool :=
  match s.recording_duration now with
  | some d => decide (MAX_RECORDING_DURATION_SECS ≤ d / NANOS_PER_SEC)
  | none => false

/-- `DictationState::start_recording`: stamps `start_time = Instant::now()`
(the clock value `now`) and allocates a fresh empty buffer. -/
def DictationState.start_recording (microphone_device_id : Option String)
    (now : Nat) : DictationState :=
  DictationState.Recording now [] microphone_device_id

/-- `DictationState::start_processing`. -/
def DictationState.start_processing (audio_data : List Int)
    (duration_seconds : ℚ) : DictationState :=
  DictationState.Processing audio_data duration_seconds

/-- `DictationState::error`. -/
def DictationState.error (message : String) : DictationState :=
  DictationState.Error message

/-- `DictationState::idle`. -/
def DictationState.idle : DictationState :=
  DictationState.Idle

/-- The spec's `reset()` operation: the control path replaces the current
state by `DictationState::idle()` whatever it was (see the cancellation
paths in the integration tests); no data from the old state is carried
over. -/
def DictationState.reset (_s : DictationState) : DictationState :=
  DictationState.idle

/-- The `AudioBuffer` struct of `dictation.rs`: stored samples plus the
`max_size` bound fixed at construction. -/
structure AudioBuffer where
  samples : List Int
  max_size : Nat

/-- `AudioBuffer::new`. -/
def AudioBuffer.new (max_size : Nat) : AudioBuffer :=
  { samples := [], max_size := max_size }

/-- `AudioBuffer::append`: bails before touching the samples when
`samples.len() + new_samples.len() > max_size`, otherwise extends in
order.  Returns the `Result` together with the updated receiver. -/
def AudioBuffer.append (b : AudioBuffer) (new_samples : List Int) :
    Except String Unit × AudioBuffer :=
  if b.max_size < b.samples.length + new_samples.length then
    (Except.error "Audio buffer would exceed maximum size", b)
  else
    (Except.ok (), { b with samples := b.samples ++ new_samples })

/-- `AudioBuffer::get_samples`. -/
def AudioBuffer.get_samples (b : AudioBuffer) : List Int :=
  b.samples

/-- `AudioBuffer::len`. -/
def AudioBuffer.len (b : AudioBuffer) : Nat :=
  b.samples.length

/-- `AudioBuffer::is_empty`. -/
def AudioBuffer.is_empty (b : AudioBuffer) : Bool :=
  b.samples.isEmpty

/-- `AudioBuffer::clear`. -/
def AudioBuffer.clear (b : AudioBuffer) : AudioBuffer :=
  { b with samples := [] }

/-- `AudioBuffer::duration_seconds`: `samples.len() as f64 / 16000.0`,
embedded in `ℚ` (exact at these magnitudes up to the final rounding, which
is far below the tolerances the claims use). -/
def AudioBuffer.duration_seconds (b : AudioBuffer) : ℚ :=
  (b.samples.length : ℚ) / 16000

/-- Sequential `append` calls, propagating the first failure, used to state
properties of whole call sequences. -/
def AudioBuffer.appendAll (b : AudioBuffer) : List (List Int) → Except String AudioBuffer
  | [] => Except.ok b
  | xs :: rest =>
    match b.append xs with
    | (Except.ok _, b2) => b2.appendAll rest
    | (Except.error e, _) => Except.error e

/-- The `AudioCaptureBuffer` struct of `audio_capture.rs`: mutex-guarded
sample vector and optional start instant (a `Nat` nanosecond timestamp). -/
structure AudioCaptureBuffer where
  samples : List Int
  start_time : Option Nat

/-- `AudioCaptureBuffer::new`. -/
def AudioCaptureBuffer.new : AudioCaptureBuffer :=
  { samples := [], start_time := none }

/-- `AudioCaptureBuffer::start_recording` at clock value `now`: clears the
samples and sets the start time. -/
def AudioCaptureBuffer.start_recording (_b : AudioCaptureBuffer) (now : Nat) :
    AudioCaptureBuffer :=
  { samples := [], start_time := some now }

/-- `AudioCaptureBuffer::append_samples`: bails before touching the samples
when `samples.len() + new_samples.len() > RING_BUFFER_CAPACITY`, otherwise
extends in order. -/
def AudioCaptureBuffer.append_samples (b : AudioCaptureBuffer)
    (new_samples : List Int) : Except String Unit × AudioCaptureBuffer :=
  if RING_BUFFER_CAPACITY < b.samples.length + new_samples.length then
    (Except.error "Audio buffer would exceed maximum capacity", b)
  else
    (Except.ok (), { b with samples := b.samples ++ new_samples })

/-- `AudioCaptureBuffer::get_samples` (a clone of the stored vector). -/
def AudioCaptureBuffer.get_samples (b : AudioCaptureBuffer) : List Int :=
  b.samples

/-- `AudioCaptureBuffer::len`. -/
def AudioCaptureBuffer.len (b : AudioCaptureBuffer) : Nat :=
  b.samples.length

/-- `AudioCaptureBuffer::is_empty`. -/
def AudioCaptureBuffer.is_empty (b : AudioCaptureBuffer) : Bool :=
  b.samples.isEmpty

/-- `AudioCaptureBuffer::recording_duration` observed at clock value `now`:
`start.elapsed()` when started, `Duration::from_secs(0)` otherwise. -/
def AudioCaptureBuffer.recording_duration (b : AudioCaptureBuffer) (now : Nat) : Nat :=
  match b.start_time with
  | some start => now - start
  | none => 0

/-- `AudioCaptureBuffer::has_exceeded_max_duration` observed at clock value
`now`: `recording_duration().as_secs() >= MAX_RECORDING_DURATION_SECS`. -/
def AudioCaptureBuffer.has_exceeded_max_duration (b : AudioCaptureBuffer)
    (now : Nat) : Bool :=
  decide (MAX_RECORDING_DURATION_SECS ≤ b.recording_duration now / NANOS_PER_SEC)

/-- `AudioCaptureBuffer::duration_seconds`:
`samples.len() as f64 / DICTATION_SAMPLE_RATE as f64`, embedded in `ℚ`. -/
def AudioCaptureBuffer.duration_seconds (b : AudioCaptureBuffer) : ℚ :=
  (b.samples.length : ℚ) / (DICTATION_SAMPLE_RATE : ℚ)

/-- `AudioCaptureBuffer::clear`: clears the samples and the start time. -/
def AudioCaptureBuffer.clear (_b : AudioCaptureBuffer) : AudioCaptureBuffer :=
  { samples := [], start_time := none }

/-- Length never exceeds capacity: the buffer invariant of the spec. -/
def AudioCaptureBuffer.inv (b : AudioCaptureBuffer) : Prop :=
  b.samples.length ≤ RING_BUFFER_CAPACITY

/-- Shared body of `AudioBuffer::calculate_rms_level` (window size is a
parameter) and `AudioCaptureBuffer::calculate_rms_level` (window size fixed
to `RMS_WINDOW_SIZE`); the two Rust bodies are identical.  Returns 0.0 on an
empty buffer or empty window; otherwise the RMS of the last `window_size`
samples in `f64` (embedded in `ℝ`), normalized by `i16::MAX` and clamped by
`.min(1.0)`. -/
noncomputable def rmsLevelOf (samples : List Int) (window_size : Nat) : ℝ :=
  if samples = [] then 0
  else if samples.drop (samples.length - window_size) = [] then 0
  else
    min (Real.sqrt ((((samples.drop (samples.length - window_size)).map
          (fun s : Int => ((s : ℝ)) ^ 2)).sum)
        / (samples.drop (samples.length - window_size)).length) / 32767) 1

/-- `AudioBuffer::calculate_rms_level`. -/
noncomputable def AudioBuffer.calculate_rms_level (b : AudioBuffer)
    (window_size : Nat) : ℝ :=
  rmsLevelOf b.samples window_size

/-- `AudioCaptureBuffer::calculate_rms_level` (window fixed to
`RMS_WINDOW_SIZE`). -/
noncomputable def AudioCaptureBuffer.calculate_rms_level (b : AudioCaptureBuffer) : ℝ :=
  rmsLevelOf b.samples RMS_WINDOW_SIZE

/-- Rust `i16` saturation bounds, used by the `as i16` cast. -/
def i16_saturate (t : Int) : Int :=
  max (-32768) (min 32767 t)

/-- The Rust `f32 as i16` cast on a finite value: truncate toward zero,
then saturate to the `i16` range. -/
def f32_to_i16 (q : ℚ) : Int :=
  i16_saturate (if 0 ≤ q then ⌊q⌋ else ⌈q⌉)

/-- Downmix of one interleaved frame (`data.chunks(source_channels)` chunk)
in `build_input_stream`: each channel sample is already in the signed
16-bit domain (`i16::from_sample`), widened and averaged over
`source_channels`. -/
def downmix_chunk (source_channels : Nat) (chunk : List Int) : ℚ :=
  ((chunk.map (fun s : Int => (s : ℚ))).sum) / (source_channels : ℚ)

/-- `resample_ratio` of `build_input_stream`:
`source_sample_rate as f32 / DICTATION_SAMPLE_RATE as f32`. -/
def resampleRatioOf (source_rate target_rate : Nat) : ℚ :=
  (source_rate : ℚ) / (target_rate : ℚ)

/-- `slice::chunks(n)`: groups of `n` elements in order, last group
possibly shorter (`n = 0` panics in Rust and is never used; it returns `[]`
here). -/
def listChunks (n : Nat) (l : List Int) : List (List Int) :=
  match l with
  | [] => []
  | x :: xs =>
    if _h : n = 0 then []
    else (x :: xs).take n :: listChunks n ((x :: xs).drop n)
termination_by l.length
decreasing_by
  simp only [List.length_drop, List.length_cons]
  omega

/-- The per-chunk loop body of the `build_input_stream` callback: for each
frame, increment the accumulator by 1; when `sample_accumulator >=
resample_ratio`, subtract the ratio and emit the downmixed mono sample cast
to `i16`.  Returns the final accumulator and the emitted samples in
order. -/
def resample_chunks (source_channels : Nat) (ratio : ℚ) :
    ℚ → List (List Int) → ℚ × List Int
  | acc, [] => (acc, [])
  | acc, chunk :: rest =>
    if ratio ≤ acc + 1 then
      let r := resample_chunks source_channels ratio (acc + 1 - ratio) rest
      (r.1, f32_to_i16 (downmix_chunk source_channels chunk) :: r.2)
    else
      resample_chunks source_channels ratio (acc + 1) rest

/-- One invocation of the `build_input_stream` data callback on the flat
interleaved block `data`, starting from accumulator `acc`. -/
def process_block (source_channels : Nat) (ratio : ℚ) (acc : ℚ)
    (data : List Int) : ℚ × List Int :=
  resample_chunks source_channels ratio acc (listChunks source_channels data)

theorem AudioBuffer.appendAll_ok (chunks : List (List Int)) :
    ∀ b : AudioBuffer,
      b.samples.length + (chunks.map List.length).sum ≤ b.max_size →
      ∃ b2, b.appendAll chunks = Except.ok b2 ∧
        b2.samples.length = b.samples.length + (chunks.map List.length).sum ∧
        b2.max_size = b.max_size := by
  induction chunks with
  | nil =>
    intro b h
    exact ⟨b, rfl, by simp, rfl⟩
  | cons xs rest ih =>
    intro b h
    simp only [List.map_cons, List.sum_cons] at h
    have hfit : ¬ b.max_size < b.samples.length + xs.length := by omega
    have hstep : b.appendAll (xs :: rest)
        = AudioBuffer.appendAll ⟨b.samples ++ xs, b.max_size⟩ rest := by
      simp [AudioBuffer.appendAll, AudioBuffer.append, hfit]
    obtain ⟨b2, h1, h2, h3⟩ := ih ⟨b.samples ++ xs, b.max_size⟩ (by
      simp only [List.length_append]
      omega)
    refine ⟨b2, hstep ▸ h1, ?_, h3⟩
    simp only [List.length_append] at h2
    simp only [List.map_cons, List.sum_cons]
    omega

/-- C1: a sequence of `append` calls whose total length fits the capacity
all succeed and leave the sample count equal to the sum of the appended
lengths; an `append` for which `len + new > max_size` returns the capacity
error and leaves both the contents and the length unchanged. -/
theorem c1_append_capacity_spec :
    (∀ (max_size : Nat) (chunks : List (List Int)),
        (chunks.map List.length).sum ≤ max_size →
        ∃ b2, (AudioBuffer.new max_size).appendAll chunks = Except.ok b2 ∧
          b2.samples.length = (chunks.map List.length).sum) ∧
    (∀ (b : AudioBuffer) (xs : List Int),
        b.max_size < b.samples.length + xs.length →
        (b.append xs).1 = Except.error "Audio buffer would exceed maximum size" ∧
        (b.append xs).2 = b) := by
  constructor
  · intro max_size chunks h
    obtain ⟨b2, h1, h2, _⟩ := AudioBuffer.appendAll_ok chunks (AudioBuffer.new max_size)
      (by simpa [AudioBuffer.new] using h)
    exact ⟨b2, h1, by simpa [AudioBuffer.new] using h2⟩
  · intro b xs h
    constructor <;> simp [AudioBuffer.append, h]

theorem c1_append_capacity_spec_witness :
    ([List.replicate 800 (0 : Int), List.replicate 100 (0 : Int)].map List.length).sum ≤ 1000 ∧
    (∃ b2, (AudioBuffer.new 1000).appendAll
          [List.replicate 800 (0 : Int), List.replicate 100 (0 : Int)] = Except.ok b2 ∧
        b2.samples.length
          = ([List.replicate 800 (0 : Int), List.replicate 100 (0 : Int)].map List.length).sum) ∧
    (AudioBuffer.mk (List.replicate 800 0) 1000).max_size
      < (AudioBuffer.mk (List.replicate 800 0) 1000).samples.length
        + (List.replicate 300 (0 : Int)).length ∧
    ((AudioBuffer.mk (List.replicate 800 0) 1000).append (List.replicate 300 0)).1
      = Except.error "Audio buffer would exceed maximum size" ∧
    ((AudioBuffer.mk (List.replicate 800 0) 1000).append (List.replicate 300 0)).2
      = AudioBuffer.mk (List.replicate 800 0) 1000 := by
  have hsum : ([List.replicate 800 (0 : Int), List.replicate 100 (0 : Int)].map List.length).sum
      ≤ 1000 := by
    simp only [List.map_cons, List.map_nil, List.sum_cons, List.sum_nil, List.length_replicate]
    omega
  have hover : (AudioBuffer.mk (List.replicate 800 0) 1000).max_size
      < (AudioBuffer.mk (List.replicate 800 0) 1000).samples.length
        + (List.replicate 300 (0 : Int)).length := by
    simp only [List.length_replicate]
    omega
  exact ⟨hsum, c1_append_capacity_spec.1 1000 _ hsum, hover,
    (c1_append_capacity_spec.2 _ _ hover).1, (c1_append_capacity_spec.2 _ _ hover).2⟩

/-- C2: `can_start_recording` is true exactly in `Idle` and `Error`, false
in `Recording` and `Processing`; for any device selector, the state produced
by `start_recording` has `can_start_recording = false`. -/
theorem c2_can_start_recording_spec :
    DictationState.Idle.can_start_recording = true ∧
    (∀ m, (DictationState.Error m).can_start_recording = true) ∧
    (∀ t buf dev, (DictationState.Recording t buf dev).can_start_recording = false) ∧
    (∀ a d, (DictationState.Processing a d).can_start_recording = false) ∧
    (∀ dev now, (DictationState.start_recording dev now).can_start_recording = false) :=
  ⟨rfl, fun _ => rfl, fun _ _ _ => rfl, fun _ _ => rfl, fun _ _ => rfl⟩

/-- C5: the session-level `has_exceeded_max_duration` is false in `Idle`,
`Processing` and `Error`; in `Recording` it holds exactly when the
wall-clock time elapsed since the recording started is at least
`MAX_RECORDING_DURATION_SECS` (300) seconds, and it agrees with the capture
buffer's wall-clock check for the same start instant — for any buffer
contents, so it does not depend on the sample-count-derived duration. -/
theorem c5_has_exceeded_max_duration_spec :
    (∀ now, DictationState.Idle.has_exceeded_max_duration now = false) ∧
    (∀ m now, (DictationState.Error m).has_exceeded_max_duration now = false) ∧
    (∀ a d now, (DictationState.Processing a d).has_exceeded_max_duration now = false) ∧
    (∀ t buf dev now, (DictationState.Recording t buf dev).has_exceeded_max_duration now
        = decide (MAX_RECORDING_DURATION_SECS * NANOS_PER_SEC ≤ now - t)) ∧
    (∀ t buf dev now samples,
        (DictationState.Recording t buf dev).has_exceeded_max_duration now
          = AudioCaptureBuffer.has_exceeded_max_duration ⟨samples, some t⟩ now) := by
  refine ⟨fun _ => rfl, fun _ _ => rfl, fun _ _ _ => rfl, ?_, fun _ _ _ _ _ => rfl⟩
  intro t buf dev now
  have hpos : 0 < NANOS_PER_SEC := by norm_num [NANOS_PER_SEC]
  simp only [DictationState.has_exceeded_max_duration, DictationState.recording_duration]
  rw [decide_eq_decide]
  exact Nat.le_div_iff_mul_le hpos

/-- C6: `reset` from every state yields `Idle` with
`can_start_recording = true`, and the resulting state is never
`Processing` (cancellation produces no processing snapshot). -/
theorem c6_reset_yields_idle (s : DictationState) :
    s.reset = DictationState.Idle ∧
    s.reset.can_start_recording = true ∧
    s.reset.is_processing = false :=
  ⟨rfl, rfl, rfl⟩

/-- C7: `duration_seconds` equals `sampleCount / 16000` for both buffer
types, does not depend on the wall-clock start time, and for a buffer of
exactly 16000 samples it is within 1/100 of 1. -/
theorem c7_duration_seconds_spec :
    (∀ b : AudioBuffer, b.duration_seconds = (b.samples.length : ℚ) / 16000) ∧
    (∀ b : AudioCaptureBuffer,
        b.duration_seconds = (b.samples.length : ℚ) / (DICTATION_SAMPLE_RATE : ℚ)) ∧
    (∀ samples t1 t2, AudioCaptureBuffer.duration_seconds ⟨samples, t1⟩
        = AudioCaptureBuffer.duration_seconds ⟨samples, t2⟩) ∧
    (∀ b : AudioBuffer, b.samples.length = 16000 → |b.duration_seconds - 1| ≤ 1 / 100) ∧
    (∀ b : AudioCaptureBuffer, b.samples.length = 16000 →
        |b.duration_seconds - 1| ≤ 1 / 100) := by
  refine ⟨fun _ => rfl, fun _ => rfl, fun _ _ _ => rfl, ?_, ?_⟩
  · intro b h
    rw [AudioBuffer.duration_seconds, h]
    norm_num
  · intro b h
    rw [AudioCaptureBuffer.duration_seconds, h]
    norm_num [DICTATION_SAMPLE_RATE]

theorem c7_duration_seconds_spec_witness :
    (AudioBuffer.mk (List.replicate 16000 0) MAX_AUDIO_BUFFER_SIZE).samples.length = 16000 ∧
    |(AudioBuffer.mk (List.replicate 16000 0) MAX_AUDIO_BUFFER_SIZE).duration_seconds - 1|
      ≤ 1 / 100 ∧
    (AudioCaptureBuffer.mk (List.replicate 16000 0) none).samples.length = 16000 ∧
    |(AudioCaptureBuffer.mk (List.replicate 16000 0) none).duration_seconds - 1| ≤ 1 / 100 := by
  have h1 : (AudioBuffer.mk (List.replicate 16000 0) MAX_AUDIO_BUFFER_SIZE).samples.length
      = 16000 := by simp only [List.length_replicate]
  have h2 : (AudioCaptureBuffer.mk (List.replicate 16000 0) none).samples.length = 16000 := by
    simp only [List.length_replicate]
  exact ⟨h1, c7_duration_seconds_spec.2.2.2.1 _ h1, h2, c7_duration_seconds_spec.2.2.2.2 _ h2⟩

/-- C8: the invariant `length ≤ capacity` holds for a fresh capture buffer
and is preserved by `start_recording`, `clear` and `append_samples`; an
over-capacity `append_samples` is rejected with the capacity error and
leaves the buffer unchanged (no truncation). -/
theorem c8_capacity_invariant_spec :
    AudioCaptureBuffer.new.inv ∧
    (∀ (b : AudioCaptureBuffer) (now : Nat), (b.start_recording now).inv) ∧
    (∀ b : AudioCaptureBuffer, b.clear.inv) ∧
    (∀ (b : AudioCaptureBuffer) (xs : List Int), b.inv → ((b.append_samples xs).2).inv) ∧
    (∀ (b : AudioCaptureBuffer) (xs : List Int),
        RING_BUFFER_CAPACITY < b.samples.length + xs.length →
        (b.append_samples xs).1 = Except.error "Audio buffer would exceed maximum capacity" ∧
        (b.append_samples xs).2 = b) := by
  refine ⟨?_, ?_, ?_, ?_, ?_⟩
  · simp [AudioCaptureBuffer.new, AudioCaptureBuffer.inv]
  · intro b now
    simp [AudioCaptureBuffer.start_recording, AudioCaptureBuffer.inv]
  · intro b
    simp [AudioCaptureBuffer.clear, AudioCaptureBuffer.inv]
  · intro b xs hb
    by_cases h : RING_BUFFER_CAPACITY < b.samples.length + xs.length
    · simpa [AudioCaptureBuffer.append_samples, h] using hb
    · simp only [AudioCaptureBuffer.append_samples, if_neg h]
      simp only [AudioCaptureBuffer.inv, List.length_append]
      omega
  · intro b xs h
    constructor <;> simp [AudioCaptureBuffer.append_samples, h]

theorem c8_capacity_invariant_spec_witness :
    AudioCaptureBuffer.new.inv ∧
    ((AudioCaptureBuffer.new.append_samples [0]).2).inv ∧
    RING_BUFFER_CAPACITY < AudioCaptureBuffer.new.samples.length
      + (List.replicate (RING_BUFFER_CAPACITY + 1) (0 : Int)).length ∧
    (AudioCaptureBuffer.new.append_samples (List.replicate (RING_BUFFER_CAPACITY + 1) 0)).1
      = Except.error "Audio buffer would exceed maximum capacity" ∧
    (AudioCaptureBuffer.new.append_samples (List.replicate (RING_BUFFER_CAPACITY + 1) 0)).2
      = AudioCaptureBuffer.new := by
  have hinv : AudioCaptureBuffer.new.inv := c8_capacity_invariant_spec.1
  have hnil : AudioCaptureBuffer.new.samples.length = 0 := by
    simp only [AudioCaptureBuffer.new, List.length_nil]
  have hover : RING_BUFFER_CAPACITY < AudioCaptureBuffer.new.samples.length
      + (List.replicate (RING_BUFFER_CAPACITY + 1) (0 : Int)).length := by
    rw [hnil, List.length_replicate]
    omega
  exact ⟨hinv, c8_capacity_invariant_spec.2.2.2.1 _ _ hinv, hover,
    (c8_capacity_invariant_spec.2.2.2.2 _ _ hover).1,
    (c8_capacity_invariant_spec.2.2.2.2 _ _ hover).2⟩

/-- C9: starting a recording with no device selector yields a `Recording`
state; appending 16000 samples of value 100 into a fresh buffer succeeds,
after which the count is 16000 and the duration is within 1/100 of 1; the
stop transition (`start_processing` on the snapshot and duration) yields
`Processing` carrying exactly those 16000 samples in order and duration 1. -/
theorem c9_record_stop_scenario (now : Nat) :
    (DictationState.start_recording none now).can_start_recording = false ∧
    (DictationState.start_recording none now).is_recording = true ∧
    ((AudioBuffer.new MAX_AUDIO_BUFFER_SIZE).append (List.replicate 16000 100)).1
      = Except.ok () ∧
    ((AudioBuffer.new MAX_AUDIO_BUFFER_SIZE).append (List.replicate 16000 100)).2.len
      = 16000 ∧
    |((AudioBuffer.new MAX_AUDIO_BUFFER_SIZE).append
        (List.replicate 16000 100)).2.duration_seconds - 1| ≤ 1 / 100 ∧
    DictationState.start_processing
        (((AudioBuffer.new MAX_AUDIO_BUFFER_SIZE).append
            (List.replicate 16000 100)).2.get_samples)
        (((AudioBuffer.new MAX_AUDIO_BUFFER_SIZE).append
            (List.replicate 16000 100)).2.duration_seconds)
      = DictationState.Processing (List.replicate 16000 100) 1 := by
  have hfit : ¬ (AudioBuffer.new MAX_AUDIO_BUFFER_SIZE).max_size
      < (AudioBuffer.new MAX_AUDIO_BUFFER_SIZE).samples.length
        + (List.replicate 16000 (100 : Int)).length := by
    simp only [AudioBuffer.new, List.length_replicate, List.length_nil, MAX_AUDIO_BUFFER_SIZE]
    omega
  have happ : (AudioBuffer.new MAX_AUDIO_BUFFER_SIZE).append (List.replicate 16000 100)
      = (Except.ok (), ⟨List.replicate 16000 100, MAX_AUDIO_BUFFER_SIZE⟩) := by
    rw [AudioBuffer.append, if_neg hfit]
    simp only [AudioBuffer.new, List.nil_append]
  have h16 : ((16000 : Nat) : ℚ) / 16000 = 1 := by norm_num
  refine ⟨rfl, rfl, ?_, ?_, ?_, ?_⟩
  · rw [happ]
  · rw [happ]
    simp only [AudioBuffer.len, List.length_replicate]
  · rw [happ]
    simp only [AudioBuffer.duration_seconds, List.length_replicate]
    rw [h16]
    norm_num
  · rw [happ]
    simp only [DictationState.start_processing, AudioBuffer.get_samples,
      AudioBuffer.duration_seconds, List.length_replicate]
    rw [h16]

theorem rmsLevelOf_nil (w : Nat) : rmsLevelOf [] w = 0 := by
  simp [rmsLevelOf]

theorem rmsLevelOf_zero_window (samples : List Int) : rmsLevelOf samples 0 = 0 := by
  unfold rmsLevelOf
  by_cases h : samples = []
  · simp [h]
  · simp [h, Nat.sub_zero, List.drop_length]

theorem rmsLevelOf_nonneg (samples : List Int) (w : Nat) : 0 ≤ rmsLevelOf samples w := by
  unfold rmsLevelOf
  split
  · exact le_refl 0
  · split
    · exact le_refl 0
    · refine le_min ?_ (by norm_num)
      exact div_nonneg (Real.sqrt_nonneg _) (by norm_num)

theorem rmsLevelOf_le_one (samples : List Int) (w : Nat) : rmsLevelOf samples w ≤ 1 := by
  unfold rmsLevelOf
  split
  · norm_num
  · split
    · norm_num
    · exact min_le_right _ _

/-- C4: the RMS level meter returns exactly 0 on an empty buffer and on an
empty window (window size 0), and its value always lies in `[0, 1]`, for
both the window-parameterized `AudioBuffer::calculate_rms_level` and the
fixed-window `AudioCaptureBuffer::calculate_rms_level`. -/
theorem c4_rms_level_spec :
    (∀ (max_size w : Nat), (AudioBuffer.mk [] max_size).calculate_rms_level w = 0) ∧
    (∀ b : AudioBuffer, b.calculate_rms_level 0 = 0) ∧
    (∀ (b : AudioBuffer) (w : Nat),
        0 ≤ b.calculate_rms_level w ∧ b.calculate_rms_level w ≤ 1) ∧
    (∀ t, (AudioCaptureBuffer.mk [] t).calculate_rms_level = 0) ∧
    (∀ b : AudioCaptureBuffer,
        0 ≤ b.calculate_rms_level ∧ b.calculate_rms_level ≤ 1) := by
  refine ⟨?_, ?_, ?_, ?_, ?_⟩
  · intro max_size w
    exact rmsLevelOf_nil w
  · intro b
    exact rmsLevelOf_zero_window b.samples
  · intro b w
    exact ⟨rmsLevelOf_nonneg _ _, rmsLevelOf_le_one _ _⟩
  · intro t
    exact rmsLevelOf_nil _
  · intro b
    exact ⟨rmsLevelOf_nonneg _ _, rmsLevelOf_le_one _ _⟩

theorem resample_chunks_emit (ch : Nat) (ratio acc : ℚ) (chunk : List Int)
    (rest : List (List Int)) (h : ratio ≤ acc + 1) :
    resample_chunks ch ratio acc (chunk :: rest)
      = ((resample_chunks ch ratio (acc + 1 - ratio) rest).1,
         f32_to_i16 (downmix_chunk ch chunk)
           :: (resample_chunks ch ratio (acc + 1 - ratio) rest).2) := by
  simp only [resample_chunks, if_pos h]

theorem resample_chunks_skip (ch : Nat) (ratio acc : ℚ) (chunk : List Int)
    (rest : List (List Int)) (h : ¬ ratio ≤ acc + 1) :
    resample_chunks ch ratio acc (chunk :: rest)
      = resample_chunks ch ratio (acc + 1) rest := by
  simp only [resample_chunks, if_neg h]

theorem listChunks_nil (n : Nat) : listChunks n [] = [] := by
  rw [listChunks]

theorem listChunks_cons (n : Nat) (x : Int) (xs : List Int) (h : ¬ n = 0) :
    listChunks n (x :: xs) = (x :: xs).take n :: listChunks n ((x :: xs).drop n) := by
  rw [listChunks]
  simp [h]

theorem listChunks_two_replicate (v : Int) :
    ∀ k : Nat, listChunks 2 (List.replicate (2 * k) v) = List.replicate k ([v, v]) := by
  intro k
  induction k with
  | zero => exact listChunks_nil 2
  | succ n ih =>
    have hrep : List.replicate (2 * (n + 1)) v = v :: v :: List.replicate (2 * n) v := by
      have h2 : 2 * (n + 1) = 2 * n + 1 + 1 := by ring
      rw [h2, List.replicate_succ, List.replicate_succ]
    rw [hrep, listChunks_cons 2 v _ (by norm_num)]
    show [v, v] :: listChunks 2 (List.replicate (2 * n) v) = List.replicate (n + 1) ([v, v])
    rw [ih, List.replicate_succ]

theorem downmix_chunk_pair (v : Int) : downmix_chunk 2 [v, v] = (v : ℚ) := by
  unfold downmix_chunk
  simp only [List.map_cons, List.map_nil, List.sum_cons, List.sum_nil]
  have h2 : ((2 : Nat) : ℚ) = 2 := by norm_num
  rw [h2]
  ring

theorem f32_to_i16_intCast (v : Int) (h1 : -32768 ≤ v) (h2 : v ≤ 32767) :
    f32_to_i16 ((v : ℚ)) = v := by
  have hif : (if 0 ≤ ((v : ℚ)) then ⌊((v : ℚ))⌋ else ⌈((v : ℚ))⌉) = v := by
    split
    · exact Int.floor_intCast v
    · exact Int.ceil_intCast v
  unfold f32_to_i16 i16_saturate
  rw [hif, min_eq_right h2, max_eq_right h1]

theorem resample_chunks_three (v : Int) (h1 : -32768 ≤ v) (h2 : v ≤ 32767) :
    ∀ k : Nat, resample_chunks 2 3 0 (List.replicate (3 * k) ([v, v]))
      = (0, List.replicate k v) := by
  intro k
  induction k with
  | zero => rfl
  | succ n ih =>
    have hrep : List.replicate (3 * (n + 1)) ([v, v])
        = [v, v] :: [v, v] :: [v, v] :: List.replicate (3 * n) ([v, v]) := by
      have h3 : 3 * (n + 1) = 3 * n + 1 + 1 + 1 := by ring
      rw [h3, List.replicate_succ, List.replicate_succ, List.replicate_succ]
    rw [hrep]
    rw [resample_chunks_skip 2 3 0 _ _ (by norm_num)]
    rw [resample_chunks_skip 2 3 (0 + 1) _ _ (by norm_num)]
    rw [resample_chunks_emit 2 3 (0 + 1 + 1) _ _ (by norm_num)]
    have hacc : (0 : ℚ) + 1 + 1 + 1 - 3 = 0 := by norm_num
    rw [hacc, ih, downmix_chunk_pair v, f32_to_i16_intCast v h1 h2]
    rw [List.replicate_succ]

/-- C3: with a 48000 Hz stereo source and the 16000 Hz target, feeding 3000
frames (6000 interleaved samples) all holding the in-range value `v` emits
exactly 1000 samples, each equal to `v`, via the fractional-accumulator
decimation applied after the i16 downmix; the final accumulator returns to
0. -/
theorem c3_resampler_decimation (v : Int) (h1 : -32768 ≤ v) (h2 : v ≤ 32767) :
    process_block 2 (resampleRatioOf 48000 16000) 0 (List.replicate 6000 v)
      = (0, List.replicate 1000 v) := by
  have hr : resampleRatioOf 48000 16000 = 3 := by
    norm_num [resampleRatioOf, DICTATION_SAMPLE_RATE]
  show resample_chunks 2 (resampleRatioOf 48000 16000) 0
      (listChunks 2 (List.replicate 6000 v)) = (0, List.replicate 1000 v)
  rw [hr]
  rw [show (6000 : Nat) = 2 * 3000 from by norm_num]
  rw [listChunks_two_replicate v 3000]
  rw [show (3000 : Nat) = 3 * 1000 from by norm_num]
  exact resample_chunks_three v h1 h2 1000

theorem c3_resampler_decimation_witness :
    (-32768 ≤ (100 : Int)) ∧ ((100 : Int) ≤ 32767) ∧
    process_block 2 (resampleRatioOf 48000 16000) 0 (List.replicate 6000 (100 : Int))
      = (0, List.replicate 1000 (100 : Int)) :=
  ⟨by norm_num, by norm_num, c3_resampler_decimation 100 (by norm_num) (by norm_num)⟩

theorem resample_chunks_length_le (ch : Nat) (ratio : ℚ) :
    ∀ (chunks : List (List Int)) (acc : ℚ),
      (resample_chunks ch ratio acc chunks).2.length ≤ chunks.length := by
  intro chunks
  induction chunks with
  | nil =>
    intro acc
    simp [resample_chunks]
  | cons c rest ih =>
    intro acc
    by_cases h : ratio ≤ acc + 1
    · rw [resample_chunks_emit ch ratio acc c rest h]
      simp only [List.length_cons]
      exact Nat.succ_le_succ (ih _)
    · rw [resample_chunks_skip ch ratio acc c rest h]
      exact le_trans (ih _) (Nat.le_succ _)

/-- C10: per callback block, the loop tests the accumulator once per frame
(one chunk of `source_channels` interleaved samples) and pushes at most one
output sample when it fires, so the emitted count never exceeds the number
of frames — for every channel count, every accumulator start value, and
every ratio, including ratios below 1 (source rate below target rate). -/
theorem c10_emit_at_most_one_per_frame :
    (∀ (ch : Nat) (ratio acc : ℚ) (chunks : List (List Int)),
        (resample_chunks ch ratio acc chunks).2.length ≤ chunks.length) ∧
    (∀ (ch : Nat) (ratio acc : ℚ) (data : List Int),
        (process_block ch ratio acc data).2.length ≤ (listChunks ch data).length) :=
  ⟨fun ch ratio acc chunks => resample_chunks_length_le ch ratio chunks acc,
   fun ch ratio acc data => resample_chunks_length_le ch ratio (listChunks ch data) acc⟩
